import Mathlib

/-!
Verification of the sqlite-query-engine repository.

Shallow embedding of the Python sources:
  * `src/query_executor.py`  (QueryResult, QueryExecutor.is_safe_query, QueryExecutor.execute)
  * `src/knowledge_loader.py` (KnowledgeLoader.extract_keywords, find_relevant_files)
  * `src/schema_extractor.py` (Schema.to_prompt_string)
  * `src/prompt_builder.py`   (PromptBuilder.build_query_prompt, build_error_context)
  * `main.py`                 (process_query retry loop)

Text is modelled as `List Char` (ASCII fragment of Python `str`; the inputs and
constants of interest are ASCII).  The external sqlite layer is modelled as an
oracle `DbOutcome`-valued function together with an explicit event trace
(connection open, statement execution, connection close), so that claims about
"no statement reaches the database" and "the connection is closed" are statable.
-/

/-- Text, modelled as a list of characters (ASCII fragment of Python `str`). -/
abbrev Str := List Char

/-- Conversion from a Lean string literal to the model type. -/
def str (s : String) : Str := s.data

/-- Python `str.upper` on a character, restricted to ASCII. -/
def upperChar (c : Char) : Char :=
  if 97 ≤ c.toNat ∧ c.toNat ≤ 122 then Char.ofNat (c.toNat - 32) else c

/-- Python `str.lower` on a character, restricted to ASCII. -/
def lowerChar (c : Char) : Char :=
  if 65 ≤ c.toNat ∧ c.toNat ≤ 90 then Char.ofNat (c.toNat + 32) else c

/-- Python `str.upper`, character by character. -/
def upperStr (s : Str) : Str := s.map upperChar

/-- Python `str.lower`, character by character. -/
def lowerStr (s : Str) : Str := s.map lowerChar

/-- ASCII whitespace, the characters removed by Python `str.strip()`. -/
def isSpaceChar (c : Char) : Bool :=
  c.toNat = 32 ∨ c.toNat = 9 ∨ c.toNat = 10 ∨ c.toNat = 13 ∨ c.toNat = 11 ∨ c.toNat = 12

/-- A regex word character (`\w` of Python `re`, ASCII fragment): letters, digits, underscore. -/
def wordChar (c : Char) : Bool :=
  (65 ≤ c.toNat ∧ c.toNat ≤ 90) ∨ (97 ≤ c.toNat ∧ c.toNat ≤ 122) ∨
    (48 ≤ c.toNat ∧ c.toNat ≤ 57) ∨ c.toNat = 95

/-- A lowercase ASCII letter, the character class `[a-z]`. -/
def isLowerAlpha (c : Char) : Bool := 97 ≤ c.toNat ∧ c.toNat ≤ 122

/-- An ASCII letter (either case). -/
def isAlphaChar (c : Char) : Bool :=
  (65 ≤ c.toNat ∧ c.toNat ≤ 90) ∨ (97 ≤ c.toNat ∧ c.toNat ≤ 122)

/-- Leading-whitespace removal (`str.lstrip()`). -/
def stripLead (s : Str) : Str := s.dropWhile isSpaceChar

/-- Python `str.strip()`: drop leading and trailing whitespace. -/
def stripCh (s : Str) : Str := ((stripLead s).reverse.dropWhile isSpaceChar).reverse

/-- Substring containment, Python's `needle in hay` on strings. -/
def containsSubstr : Str → Str → Bool
  | needle, [] => needle.isEmpty
  | needle, c :: rest => needle.isPrefixOf (c :: rest) || containsSubstr needle rest

/-- Decimal digit character. -/
def digitChar (d : Nat) : Char := Char.ofNat (48 + d)

/-- Fuel-driven decimal rendering helper (structural recursion so the kernel can evaluate it). -/
def natToStrAux : Nat → Nat → Str
  | 0, _ => []
  | fuel + 1, n => if n < 10 then [digitChar n] else natToStrAux fuel (n / 10) ++ [digitChar (n % 10)]

/-- Python `str(n)` for a natural number. -/
def natToStr (n : Nat) : Str := natToStrAux (n + 1) n

/-- Python `sql.split(';')`: split on every semicolon, keeping empty segments. -/
def splitSemi : Str → List Str
  | [] => [[]]
  | c :: rest =>
    if c = ';' then [] :: splitSemi rest
    else
      match splitSemi rest with
      | [] => [[c]]
      | t :: ts => (c :: t) :: ts

/-- Strip one optional trailing semicolon (the claim C2 normalization step). -/
def dropTrailingSemi (s : Str) : Str :=
  if s.getLast? = some ';' then s.dropLast else s

/-! ### Word-boundary regex model

`re.search(r'\bKW\b', s)` for a keyword `KW` made of word characters: the keyword
occurs at some position of `s` with no word character immediately before or after it.
`wwFrom` scans positions left to right; the Boolean argument records whether the
previous character was a non-word character (so a match may start here). -/

/-- After-boundary check: the text right after a candidate match starts with a non-word
character or is empty. -/
def afterOk (kw s : Str) : Bool :=
  match s.drop kw.length with
  | [] => true
  | d :: _ => !wordChar d

/-- A whole-word match starts exactly at the head of `s`. -/
def startsWW (kw s : Str) : Bool := kw.isPrefixOf s && afterOk kw s

/-- Scan for a whole-word match; the Boolean says whether a match may start at the
current position (previous character was absent or a non-word character). -/
def wwFrom (kw : Str) : Bool → Str → Bool
  | _, [] => false
  | b, c :: rest => (b && startsWW kw (c :: rest)) || wwFrom kw (!wordChar c) rest

/-- `re.search(r'\bKW\b', s) is not None` for a word-character keyword `KW`. -/
def containsWholeWord (kw s : Str) : Bool := wwFrom kw true s

/-! ### Query executor (`src/query_executor.py`) -/

/-- Constructor arguments of `QueryExecutor` (the database path is external state and
the timeout has no observable effect in the model). -/
structure ExecConfig where
  read_only : Bool
  timeout : Nat
  max_results : Nat

/-- The `QueryResult` dataclass. -/
structure QueryResult where
  success : Bool
  columns : List Str
  rows : List (List Str)
  row_count : Nat
  error : Option Str := none
  sql : Option Str := none
  deriving DecidableEq

/-- Outcome of handing one statement to the sqlite layer: the oracle modelling
`sqlite3.connect` / `cursor.execute` / `cursor.fetchmany`.  `connErr` is a
`sqlite3.Error` raised by `connect` itself (no connection opened); `sqlErr` is a
`sqlite3.Error` raised once connected; `otherErr` is any other exception. -/
inductive DbOutcome where
  | ok (columns : List Str) (rows : List (List Str))
  | connErr (msg : Str)
  | sqlErr (msg : Str)
  | otherErr (msg : Str)

/-- Observable database-side events of one `execute` call. -/
inductive Event where
  | connOpen
  | stmtExec (sql : Str)
  | connClose
  deriving DecidableEq

/-- The `WRITE_PATTERNS` keyword list (each pattern is `\bKW\b` for these keywords,
in this order). -/
def WRITE_KEYWORDS : List Str :=
  [str "INSERT", str "UPDATE", str "DELETE", str "DROP",
   str "ALTER", str "CREATE", str "TRUNCATE", str "REPLACE"]

/-- The raw pattern text `\bKW\b` interpolated into the rejection message. -/
def patStr (kw : Str) : Str := str "\\b" ++ kw ++ str "\\b"

/-- The read-only rejection message of `is_safe_query`. -/
def blockedMsg (kw : Str) : Str :=
  str "Write operation blocked in read-only mode: " ++ patStr kw

/-- The multiple-statement rejection message of `is_safe_query`. -/
def multiMsg : Str := str "Multiple SQL statements not allowed"

/-- The list `[s.strip() for s in sql.split(';') if s.strip()]`. -/
def nonEmptyStatements (sql : Str) : List Str :=
  ((splitSemi sql).map stripCh).filter (fun t => !t.isEmpty)

/-- `QueryExecutor.is_safe_query`: first the read-only keyword scan over the
uppercased stripped text (returning the first matching pattern's message), then the
multiple-statement check. -/
def is_safe_query (cfg : ExecConfig) (sql : Str) : Bool × Str :=
  match (if cfg.read_only then
      WRITE_KEYWORDS.find? (fun kw => containsWholeWord kw (stripCh (upperStr sql)))
    else none) with
  | some kw => (false, blockedMsg kw)
  | none =>
    if 1 < (nonEmptyStatements sql).length then (false, multiMsg) else (true, [])

/-- Lines 106-108 of `execute`: strip, then remove one trailing semicolon. -/
def cleanSql (s : Str) : Str :=
  let s1 := stripCh s
  if s1.getLast? = some ';' then s1.dropLast else s1

/-- Lines 106-112 of `execute`: cleanup plus the auto-`LIMIT` append for `SELECT`
statements whose uppercased text does not contain the substring `LIMIT`. -/
def normalizeSql (cfg : ExecConfig) (s : Str) : Str :=
  let s2 := cleanSql s
  if (str "SELECT").isPrefixOf (upperStr s2) && !(containsSubstr (str "LIMIT") (upperStr s2)) then
    s2 ++ str " LIMIT " ++ natToStr cfg.max_results
  else s2

/-- `QueryExecutor.execute`, against the sqlite oracle `db`.  Returns the
`QueryResult` and the trace of database-side events.  The `except` branches of the
source return directly, without closing the connection. -/
def execute (cfg : ExecConfig) (db : Str → DbOutcome) (sql : Str) : QueryResult × List Event :=
  let v := is_safe_query cfg sql
  if v.1 then
    let sql2 := normalizeSql cfg sql
    match db sql2 with
    | .ok cols rows =>
      let rows' := rows.take cfg.max_results
      ({ success := true, columns := cols, rows := rows', row_count := rows'.length,
         error := none, sql := some sql2 },
       [Event.connOpen, Event.stmtExec sql2, Event.connClose])
    | .connErr m =>
      ({ success := false, columns := [], rows := [], row_count := 0,
         error := some m, sql := some sql2 }, [])
    | .sqlErr m =>
      ({ success := false, columns := [], rows := [], row_count := 0,
         error := some m, sql := some sql2 },
       [Event.connOpen, Event.stmtExec sql2])
    | .otherErr m =>
      ({ success := false, columns := [], rows := [], row_count := 0,
         error := some (str "Unexpected error: " ++ m), sql := some sql2 },
       [Event.connOpen, Event.stmtExec sql2])
  else
    ({ success := false, columns := [], rows := [], row_count := 0,
       error := some v.2, sql := some sql }, [])

/-! ### Knowledge loader (`src/knowledge_loader.py`) -/

/-- The fixed stop-word set of `KnowledgeLoader.extract_keywords`. -/
def STOP_WORDS : List Str :=
  [str "the", str "a", str "an", str "and", str "or", str "but", str "is", str "are",
   str "was", str "were", str "be", str "been", str "being", str "have", str "has",
   str "had", str "do", str "does", str "did", str "will", str "would", str "could",
   str "should", str "may", str "might", str "can", str "to", str "of", str "in",
   str "for", str "on", str "with", str "at", str "by", str "from", str "as",
   str "into", str "through", str "during", str "before", str "after", str "above",
   str "below", str "between", str "under", str "again", str "further", str "then",
   str "once", str "all", str "each", str "few", str "more", str "most", str "other",
   str "some", str "such", str "no", str "nor", str "not", str "only", str "own",
   str "same", str "so", str "than", str "too", str "very", str "just", str "what",
   str "which", str "who", str "whom", str "this", str "that", str "these",
   str "those", str "am", str "show", str "me", str "list", str "get", str "find",
   str "give", str "tell", str "how", str "many", str "much", str "when",
   str "where", str "why", str "total", str "count", str "sum", str "average",
   str "avg", str "max", str "min"]

/-- Scanner state and step for `re.findall(r'\b[a-z]+\b', s)`: the optional pair is the
current `[a-z]` run (reversed) together with whether its start had a word boundary;
the Boolean is whether the previous character was a word character. -/
def fwAux : Str → Option (Str × Bool) → Bool → List Str
  | [], none, _ => []
  | [], some (run, ok), _ => if ok then [run.reverse] else []
  | c :: rest, none, prevW =>
    if isLowerAlpha c then fwAux rest (some ([c], !prevW)) true
    else fwAux rest none (wordChar c)
  | c :: rest, some (run, ok), _ =>
    if isLowerAlpha c then fwAux rest (some (c :: run, ok)) true
    else (if ok && !wordChar c then [run.reverse] else []) ++ fwAux rest none (wordChar c)

/-- `re.findall(r'\b[a-z]+\b', s)`: the lowercase-letter runs delimited by word
boundaries on both sides, in order. -/
def pyWords (s : Str) : List Str := fwAux s none false

/-- `KnowledgeLoader.extract_keywords`: findall over the lowercased text, then drop
stop words and words of length at most 2.  The Python result is a set; it is
modelled as a duplicate-free list. -/
def extract_keywords (text : Str) : List Str :=
  ((pyWords (lowerStr text)).filter
    (fun w => !(decide (w ∈ STOP_WORDS)) && decide (2 < w.length))).dedup

/-- Maximal word-character runs of a string (accumulator holds the reversed current run). -/
def wrAux : Str → Option Str → List Str
  | [], none => []
  | [], some run => [run.reverse]
  | c :: rest, none => if wordChar c then wrAux rest (some [c]) else wrAux rest none
  | c :: rest, some run =>
    if wordChar c then wrAux rest (some (c :: run)) else run.reverse :: wrAux rest none

/-- Maximal word-character runs of a string. -/
def wordRuns (s : Str) : List Str := wrAux s none

/-- Maximal alphabetic runs of a string (accumulator holds the reversed current run). -/
def arAux : Str → Option Str → List Str
  | [], none => []
  | [], some run => [run.reverse]
  | c :: rest, none => if isAlphaChar c then arAux rest (some [c]) else arAux rest none
  | c :: rest, some run =>
    if isAlphaChar c then arAux rest (some (c :: run)) else run.reverse :: arAux rest none

/-- Maximal alphabetic runs of a string. -/
def alphaRuns (s : Str) : List Str := arAux s none

/-- Keyword set described by the words of claim C9: lowercase the text, take the
maximal alphabetic runs of length at least 3, drop the stop words. -/
def claimKeywords (text : Str) : List Str :=
  ((alphaRuns (lowerStr text)).filter
    (fun w => !(decide (w ∈ STOP_WORDS)) && decide (3 ≤ w.length))).dedup

/-- A knowledge document: its file name and its content.  (`KnowledgeLoader`
enumerates `*.md` files of the knowledge directory.) -/
structure KDoc where
  name : Str
  content : Str

/-- `pathlib.Path.stem`: the file name without its final extension (a file name whose
only dot leads is its own stem). -/
def stemOf (n : Str) : Str :=
  let revTail := n.reverse.dropWhile (fun c => !(c = '.'))
  match revTail with
  | [] => n
  | _ :: pre => if pre.isEmpty then n else pre.reverse

/-- The keyword set used for matching: question keywords plus lowercased table names. -/
def queryKeywords (query : Str) (tableNames : List Str) : List Str :=
  (extract_keywords query ++ tableNames.map lowerStr).dedup

/-- The per-file test of the `find_relevant_files` loop: the lowercased stem equals a
keyword or contains one as a substring, or (for a file with non-empty content) at
least two keywords occur in the lowercased content. -/
def docMatches (kws : List Str) (d : KDoc) : Bool :=
  let fstem := lowerStr (stemOf d.name)
  (decide (fstem ∈ kws) || kws.any (fun kw => containsSubstr kw fstem)) ||
    (!d.content.isEmpty &&
      decide (2 ≤ (kws.filter (fun kw => containsSubstr kw (lowerStr d.content))).length))

/-- `KnowledgeLoader.find_relevant_files`: keep the matching documents in enumeration
order, then append `_joins.md` if it exists and was not already selected. -/
def find_relevant_files (docs : List KDoc) (query : Str) (tableNames : List Str) : List Str :=
  if decide (str "_joins.md" ∈ docs.map (fun d => d.name)) &&
      !(decide (str "_joins.md" ∈
        (docs.filter (docMatches (queryKeywords query tableNames))).map (fun d => d.name))) then
    (docs.filter (docMatches (queryKeywords query tableNames))).map (fun d => d.name)
      ++ [str "_joins.md"]
  else (docs.filter (docMatches (queryKeywords query tableNames))).map (fun d => d.name)

/-! ### Schema rendering (`src/schema_extractor.py`) -/

/-- The `Column` dataclass. -/
structure Column where
  name : Str
  data_type : Str
  is_primary_key : Bool
  is_nullable : Bool

/-- The `ForeignKey` dataclass. -/
structure ForeignKey where
  from_table : Str
  from_column : Str
  to_table : Str
  to_column : Str

/-- The `Table` dataclass. -/
structure Table where
  name : Str
  columns : List Column
  primary_keys : List Str
  foreign_keys : List ForeignKey

/-- The `Schema` dataclass. -/
structure Schema where
  tables : List Table
  foreign_keys : List ForeignKey

/-- One column line of `to_prompt_string`: two-space indent, dash, name, then the type
with an optional nested ` (PRIMARY KEY)` marker and an optional ` NOT NULL` suffix. -/
def columnLine (c : Column) : Str :=
  str "  - " ++ c.name ++ str " (" ++ c.data_type ++
    (if c.is_primary_key then str " (PRIMARY KEY)" else []) ++
    (if c.is_nullable then [] else str " NOT NULL") ++ str ")"

/-- The separator of a relationship line.  The source file contains the literal
three-character sequence U+00E2, U+2020, U+2019 (a mojibake rendering of an arrow). -/
def fkArrow : Str := [Char.ofNat 0xE2, Char.ofNat 0x2020, Char.ofNat 0x2019]

/-- One relationship line of `to_prompt_string`. -/
def fkLine (fk : ForeignKey) : Str :=
  str "  - " ++ fk.from_table ++ str "." ++ fk.from_column ++ str " " ++ fkArrow ++
    str " " ++ fk.to_table ++ str "." ++ fk.to_column

/-- `Schema.to_prompt_string`, with the source's line-accumulation structure:
start from the header lines, append per-table blocks, then the relationships
block when any foreign keys exist, and join with newlines. -/
def to_prompt_string (s : Schema) : Str :=
  let lines0 := [str "DATABASE SCHEMA:", []]
  let lines1 := s.tables.foldl
    (fun acc t =>
      let acc1 := acc ++ [str "Table: " ++ t.name]
      let acc2 := t.columns.foldl (fun a c => a ++ [columnLine c]) acc1
      acc2 ++ [[]]) lines0
  let lines2 :=
    if s.foreign_keys.isEmpty then lines1
    else (s.foreign_keys.foldl (fun a fk => a ++ [fkLine fk])
            (lines1 ++ [str "RELATIONSHIPS:"])) ++ [[]]
  List.intercalate (str "\n") lines2

/-- Column line as written in the claim C10: `- column (TYPE[, PRIMARY KEY][, NOT NULL])`. -/
def specColumnLine (c : Column) : Str :=
  str "  - " ++ c.name ++ str " (" ++ c.data_type ++
    (if c.is_primary_key then str ", PRIMARY KEY" else []) ++
    (if c.is_nullable then [] else str ", NOT NULL") ++ str ")"

/-- Relationship line as written in the claim C10: ASCII `->` separator. -/
def specFkLine (fk : ForeignKey) : Str :=
  str "  - " ++ fk.from_table ++ str "." ++ fk.from_column ++ str " -> " ++
    fk.to_table ++ str "." ++ fk.to_column

/-- The rendering that claim C10 describes, differing from the source only in the
column-annotation and arrow formats. -/
def specPromptString (s : Schema) : Str :=
  List.intercalate (str "\n")
    ([str "DATABASE SCHEMA:", []] ++
      (s.tables.flatMap fun t =>
        (str "Table: " ++ t.name) :: (t.columns.map specColumnLine ++ [[]])) ++
      (if s.foreign_keys.isEmpty then []
       else (str "RELATIONSHIPS:") :: (s.foreign_keys.map specFkLine ++ [[]])))

/-- Compositional form of the source rendering (used to state the amended C10). -/
def renderPromptString (s : Schema) : Str :=
  List.intercalate (str "\n")
    ([str "DATABASE SCHEMA:", []] ++
      (s.tables.flatMap fun t =>
        (str "Table: " ++ t.name) :: (t.columns.map columnLine ++ [[]])) ++
      (if s.foreign_keys.isEmpty then []
       else (str "RELATIONSHIPS:") :: (s.foreign_keys.map fkLine ++ [[]])))

/-! ### Prompt builder (`src/prompt_builder.py`) and retry loop (`main.py`) -/

/-- `PromptBuilder.build_query_prompt`: schema text, optional knowledge, optional
error-context block, question, trailing `SQL:` cue, joined with newlines. -/
def buildQueryPrompt (schemaText knowledgeCtx : Str) (errCtx : Option Str)
    (question : Str) : Str :=
  let parts :=
    [schemaText] ++
    (if knowledgeCtx.isEmpty then [] else [knowledgeCtx]) ++
    (match errCtx with
     | some e => [str "PREVIOUS ATTEMPT FAILED:", e, [],
                  str "Please generate a corrected SQL query.", []]
     | none => []) ++
    [str "USER QUESTION: " ++ question, [], str "SQL:"]
  List.intercalate (str "\n") parts

/-- `PromptBuilder.build_error_context`. -/
def buildErrorContext (sql err : Str) : Str :=
  str "SQL: " ++ sql ++ str "\nError: " ++ err

/-- Split a string on newline characters (Python `s.split('\n')`). -/
def splitNL : Str → List Str
  | [] => [[]]
  | c :: rest =>
    if c = '\n' then [] :: splitNL rest
    else
      match splitNL rest with
      | [] => [[c]]
      | t :: ts => (c :: t) :: ts

/-- The markdown code-fence removal of `process_query`: if the (already stripped)
response starts with three backquote characters, drop the first line, drop the last
line too when its stripped form is exactly a fence, and strip again. -/
def cleanFence (sql : Str) : Str :=
  if (str "```").isPrefixOf sql then
    let lines := splitNL sql
    let kept :=
      if (lines.getLast?.map stripCh) = some (str "```") then (lines.drop 1).dropLast
      else lines.drop 1
    stripCh (List.intercalate (str "\n") kept)
  else sql

/-- The candidate SQL derived from one raw backend response in `process_query`. -/
def candidateOf (raw : Str) : Str := cleanFence (stripCh raw)

/-- One attempt of the `process_query` loop, as recorded for verification: the
attempt index, the error context fed into the prompt, the candidate SQL, the
execution result (`none` when `--sql-only` skipped execution) and whether the loop
continued into a retry afterwards. -/
structure AttemptLog where
  idx : Nat
  errCtxIn : Option Str
  sql : Str
  res : Option QueryResult
  retried : Bool

/-- The `for attempt in range(max_retries)` loop of `process_query` (exception-free
paths): build the prompt, call the backend, clean the response, execute; on success
return the SQL, otherwise rebuild the error context and retry only while
`attempt < max_retries - 1`.  Recursion is on the remaining iteration count. -/
def processLoop (genB : Str → Str) (execF : Str → QueryResult)
    (schemaText knowledgeCtx question : Str) (sqlOnly : Bool) (maxR : Nat) :
    Nat → Nat → Option Str → List AttemptLog × Option Str
  | 0, _, _ => ([], none)
  | remaining + 1, attempt, errCtx =>
    let prompt := buildQueryPrompt schemaText knowledgeCtx errCtx question
    let sql := candidateOf (genB prompt)
    if sqlOnly then ([⟨attempt, errCtx, sql, none, false⟩], some sql)
    else
      let res := execF sql
      if res.success then ([⟨attempt, errCtx, sql, some res, false⟩], some sql)
      else if attempt < maxR - 1 then
        let next := processLoop genB execF schemaText knowledgeCtx question sqlOnly maxR
          remaining (attempt + 1) (some (buildErrorContext sql (res.error.getD [])))
        (⟨attempt, errCtx, sql, some res, true⟩ :: next.1, next.2)
      else ([⟨attempt, errCtx, sql, some res, false⟩], none)

/-- `process_query` (exception-free paths): run the retry loop from attempt 0 with no
error context; returns the attempt trace and the accepted SQL, if any. -/
def process_query (genB : Str → Str) (execF : Str → QueryResult)
    (schemaText knowledgeCtx question : Str) (sqlOnly : Bool) (maxR : Nat) :
    List AttemptLog × Option Str :=
  processLoop genB execF schemaText knowledgeCtx question sqlOnly maxR maxR 0 none

/-- Multi-statement predicate as worded by claim C2: after stripping one optional
trailing semicolon, splitting on the remaining semicolons yields more than one
non-empty statement. -/
def claimMultiStatement (s : Str) : Bool :=
  1 < (((splitSemi (dropTrailingSemi s)).map stripCh).filter (fun t => !t.isEmpty)).length

/-- The read-only keyword rejection condition of `is_safe_query`, as a predicate. -/
def hasWriteKeyword (s : Str) : Bool :=
  WRITE_KEYWORDS.any (fun kw => containsWholeWord kw (stripCh (upperStr s)))

/-- Use the decidable-equality-derived `BEq` for the model text type, so that list
counting lemmas from the library apply uniformly. -/
instance : BEq Str := instBEqOfDecidableEq

/-! ### Lemmas: substrings, character classes, whole-word search under stripping -/

theorem containsSubstr_append_right (n a b : Str) (h : containsSubstr n a = true) :
    containsSubstr n (a ++ b) = true := by
  induction a with
  | nil =>
    have hn : n = [] := by
      cases n with
      | nil => rfl
      | cons c t => simp [containsSubstr, List.isEmpty] at h
    subst hn
    cases b with
    | nil => simp [containsSubstr]
    | cons c rest => simp [containsSubstr, List.isPrefixOf]
  | cons c a' ih =>
    simp only [containsSubstr, Bool.or_eq_true] at h
    simp only [List.cons_append, containsSubstr, Bool.or_eq_true]
    rcases h with h | h
    · left
      have h' : n <+: c :: a' := List.isPrefixOf_iff_prefix.mp h
      have h'' : n <+: (c :: a') ++ b := h'.trans (List.prefix_append _ _)
      simpa [List.cons_append] using List.isPrefixOf_iff_prefix.mpr h''
    · right; exact ih h

theorem space_not_word {c : Char} (h : isSpaceChar c = true) : wordChar c = false := by
  simp only [isSpaceChar, decide_eq_true_eq] at h
  simp only [wordChar, decide_eq_false_iff_not]
  omega

theorem lowerAlpha_word {c : Char} (h : isLowerAlpha c = true) : wordChar c = true := by
  simp only [isLowerAlpha, decide_eq_true_eq] at h
  simp only [wordChar, decide_eq_true_eq]
  omega

theorem word_of_eq_spaceless {k c : Char} (hk : wordChar k = true) (hc : isSpaceChar c = true) :
    (k == c) = false := by
  by_contra h
  have : k = c := by
    cases hkc : k == c
    · exact absurd hkc h
    · exact eq_of_beq hkc
  subst this
  rw [space_not_word hc] at hk
  exact Bool.false_ne_true hk

theorem afterOk_cons (k d : Char) (kt rest : Str) :
    afterOk (k :: kt) (d :: rest) = afterOk kt rest := rfl

theorem startsWW_snoc {c : Char} (hc : isSpaceChar c = true) :
    ∀ kw t, kw.all wordChar = true → startsWW kw (t ++ [c]) = startsWW kw t := by
  intro kw
  induction kw with
  | nil =>
    intro t _
    cases t with
    | nil => simp [startsWW, afterOk, List.isPrefixOf, space_not_word hc]
    | cons d t' => simp [startsWW, afterOk, List.isPrefixOf]
  | cons k kt ih =>
    intro t hall
    have hk : wordChar k = true := by
      simp only [List.all_cons, Bool.and_eq_true] at hall; exact hall.1
    have hkt : kt.all wordChar = true := by
      simp only [List.all_cons, Bool.and_eq_true] at hall; exact hall.2
    cases t with
    | nil =>
      simp [startsWW, List.isPrefixOf, word_of_eq_spaceless hk hc]
    | cons d t' =>
      simp only [List.cons_append, startsWW, List.isPrefixOf, afterOk_cons, Bool.and_assoc,
        List.append_eq]
      have := ih t' hkt
      simp only [startsWW] at this
      rw [this]

theorem wwFrom_snoc {c : Char} (hc : isSpaceChar c = true) (kw : Str) (hne : kw ≠ [])
    (hall : kw.all wordChar = true) :
    ∀ t b, wwFrom kw b (t ++ [c]) = wwFrom kw b t := by
  intro t
  induction t with
  | nil =>
    intro b
    obtain ⟨k, kt, rfl⟩ : ∃ k kt, kw = k :: kt := by
      cases kw with
      | nil => exact absurd rfl hne
      | cons k kt => exact ⟨k, kt, rfl⟩
    have hk : wordChar k = true := by
      simp only [List.all_cons, Bool.and_eq_true] at hall; exact hall.1
    simp [wwFrom, startsWW, List.isPrefixOf, word_of_eq_spaceless hk hc]
  | cons a t' ih =>
    intro b
    simp only [List.cons_append, wwFrom, List.append_eq]
    rw [show a :: (t' ++ [c]) = (a :: t') ++ [c] from rfl, startsWW_snoc hc kw (a :: t') hall,
      ih (!wordChar a)]

theorem wwFrom_append_spaces (kw : Str) (hne : kw ≠ []) (hall : kw.all wordChar = true) :
    ∀ u, (∀ x ∈ u, isSpaceChar x = true) → ∀ t b, wwFrom kw b (t ++ u) = wwFrom kw b t := by
  intro u
  induction u with
  | nil => intro _ t b; simp
  | cons x u' ih =>
    intro hu t b
    have hx : isSpaceChar x = true := hu x (List.mem_cons_self x u')
    have hstep : t ++ x :: u' = (t ++ [x]) ++ u' := by simp
    rw [hstep, ih (fun y hy => hu y (List.mem_cons_of_mem x hy)) (t ++ [x]) b,
      wwFrom_snoc hx kw hne hall t b]

theorem ww_cons_space {c : Char} (hc : isSpaceChar c = true) (kw : Str) (hne : kw ≠ [])
    (hall : kw.all wordChar = true) (rest : Str) (b : Bool) :
    wwFrom kw b (c :: rest) = wwFrom kw true rest := by
  obtain ⟨k, kt, rfl⟩ : ∃ k kt, kw = k :: kt := by
    cases kw with
    | nil => exact absurd rfl hne
    | cons k kt => exact ⟨k, kt, rfl⟩
  have hk : wordChar k = true := by
    simp only [List.all_cons, Bool.and_eq_true] at hall; exact hall.1
  simp [wwFrom, startsWW, List.isPrefixOf, word_of_eq_spaceless hk hc, space_not_word hc]

theorem wwFrom_stripLead (kw : Str) (hne : kw ≠ []) (hall : kw.all wordChar = true) :
    ∀ s, wwFrom kw true (stripLead s) = wwFrom kw true s := by
  intro s
  induction s with
  | nil => rfl
  | cons c rest ih =>
    by_cases hc : isSpaceChar c = true
    · have h1 : stripLead (c :: rest) = stripLead rest := by
        simp [stripLead, List.dropWhile_cons, hc]
      rw [h1, ih, ww_cons_space hc kw hne hall]
    · have h1 : stripLead (c :: rest) = c :: rest := by
        simp [stripLead, List.dropWhile_cons, hc]
      rw [h1]

theorem stripLead_decomp (s : Str) :
    ∃ u, (∀ x ∈ u, isSpaceChar x = true) ∧ stripLead s = stripCh s ++ u := by
  refine ⟨((stripLead s).reverse.takeWhile isSpaceChar).reverse, ?_, ?_⟩
  · intro x hx
    rw [List.mem_reverse] at hx
    exact List.mem_takeWhile_imp hx
  · rw [stripCh, ← List.reverse_append,
      List.takeWhile_append_dropWhile isSpaceChar ((stripLead s).reverse),
      List.reverse_reverse]

theorem containsWholeWord_stripCh (kw : Str) (hne : kw ≠ []) (hall : kw.all wordChar = true)
    (s : Str) : containsWholeWord kw (stripCh s) = containsWholeWord kw s := by
  obtain ⟨u, hu, hdecomp⟩ := stripLead_decomp s
  unfold containsWholeWord
  rw [← wwFrom_stripLead kw hne hall s, hdecomp,
    wwFrom_append_spaces kw hne hall u hu (stripCh s) true]

/-! ### Claim C1 -/

theorem kw_wordlike : ∀ kw ∈ WRITE_KEYWORDS, kw ≠ [] ∧ kw.all wordChar = true := by decide

theorem lowerStr_append (a b : Str) : lowerStr (a ++ b) = lowerStr a ++ lowerStr b :=
  List.map_append lowerChar a b

theorem blockedMsg_mentions_blocked (kw : Str) :
    containsSubstr (str "blocked") (lowerStr (blockedMsg kw)) = true := by
  rw [blockedMsg, lowerStr_append]
  apply containsSubstr_append_right
  decide

theorem is_safe_query_of_keyword (cfg : ExecConfig) (s : Str) (hro : cfg.read_only = true)
    (hkw : ∃ kw ∈ WRITE_KEYWORDS, containsWholeWord kw (upperStr s) = true) :
    ∃ kw' ∈ WRITE_KEYWORDS, is_safe_query cfg s = (false, blockedMsg kw') := by
  obtain ⟨kw, hmem, hww⟩ := hkw
  have hwl := kw_wordlike kw hmem
  have hstrip : containsWholeWord kw (stripCh (upperStr s)) = true := by
    rw [containsWholeWord_stripCh kw hwl.1 hwl.2]; exact hww
  cases hf : WRITE_KEYWORDS.find? (fun k => containsWholeWord k (stripCh (upperStr s))) with
  | none =>
    exact absurd hstrip (by simpa using List.find?_eq_none.mp hf kw hmem)
  | some kw' =>
    refine ⟨kw', List.mem_of_find?_eq_some hf, ?_⟩
    unfold is_safe_query
    rw [hro]
    simp only [if_true, hf]

/-- C1: in read-only mode, a candidate containing a whole-word mutating keyword
anywhere in its uppercased text is rejected by `execute` with success = false and an
error mentioning "blocked", and no database event happens (no connection, no
statement). -/
theorem C1_readonly_blocks (cfg : ExecConfig) (db : Str → DbOutcome) (s : Str)
    (hro : cfg.read_only = true)
    (hkw : ∃ kw ∈ WRITE_KEYWORDS, containsWholeWord kw (upperStr s) = true) :
    (execute cfg db s).1.success = false ∧
      containsSubstr (str "blocked") (lowerStr (((execute cfg db s).1.error).getD [])) = true ∧
      (execute cfg db s).2 = [] := by
  obtain ⟨kw', _, hsafe⟩ := is_safe_query_of_keyword cfg s hro hkw
  have hexec : execute cfg db s =
      ({ success := false, columns := [], rows := [], row_count := 0,
         error := some (blockedMsg kw'), sql := some s }, []) := by
    unfold execute
    rw [hsafe]
    simp
  rw [hexec]
  exact ⟨rfl, blockedMsg_mentions_blocked kw', rfl⟩

/-- Witness for C1 at a concrete blocked statement. -/
theorem C1_witness :
    (execute ⟨true, 30, 1000⟩ (fun _ => DbOutcome.ok [] []) (str "DROP TABLE users")).1.success
        = false ∧
      containsSubstr (str "blocked")
        (lowerStr (((execute ⟨true, 30, 1000⟩ (fun _ => DbOutcome.ok [] [])
          (str "DROP TABLE users")).1.error).getD [])) = true ∧
      (execute ⟨true, 30, 1000⟩ (fun _ => DbOutcome.ok [] []) (str "DROP TABLE users")).2 = [] :=
  C1_readonly_blocks ⟨true, 30, 1000⟩ (fun _ => DbOutcome.ok [] []) (str "DROP TABLE users")
    rfl (by decide)

/-! ### Claim C2 -/

theorem splitSemi_ne_nil : ∀ s : Str, splitSemi s ≠ [] := by
  intro s
  cases s with
  | nil => simp [splitSemi]
  | cons c rest =>
    by_cases hc : c = ';'
    · simp [splitSemi, hc]
    · simp only [splitSemi, if_neg hc]
      cases splitSemi rest <;> simp

theorem splitSemi_snoc_semi : ∀ t : Str, splitSemi (t ++ [';']) = splitSemi t ++ [[]] := by
  intro t
  induction t with
  | nil => rfl
  | cons c t' ih =>
    by_cases hc : c = ';'
    · simp [splitSemi, hc, ih]
    · simp only [List.cons_append, splitSemi, if_neg hc]
      cases hsp : splitSemi t' with
      | nil => exact absurd hsp (splitSemi_ne_nil t')
      | cons h ts => simp only [List.append_eq]; rw [ih, hsp]; simp

theorem stripCh_nil : stripCh [] = [] := rfl

theorem claimMulti_iff (s : Str) :
    claimMultiStatement s = true ↔ 1 < (nonEmptyStatements s).length := by
  unfold claimMultiStatement nonEmptyStatements dropTrailingSemi
  by_cases hl : s.getLast? = some ';'
  · obtain ⟨s', rfl⟩ := List.getLast?_eq_some_iff.mp hl
    rw [if_pos hl, List.dropLast_concat, splitSemi_snoc_semi]
    simp [stripCh_nil]
  · rw [if_neg hl]
    simp

/-- Counterexample to C2 as stated: a two-statement candidate whose first check to
fire, in read-only mode, is the mutating-keyword scan, so the error mentions
"blocked" rather than "multiple". -/
theorem C2_counterexample :
    claimMultiStatement (str "SELECT 1; DROP TABLE t") = true ∧
      (execute ⟨true, 30, 1000⟩ (fun _ => DbOutcome.ok [] [])
        (str "SELECT 1; DROP TABLE t")).1.success = false ∧
      containsSubstr (str "multiple")
        (lowerStr (((execute ⟨true, 30, 1000⟩ (fun _ => DbOutcome.ok [] [])
          (str "SELECT 1; DROP TABLE t")).1.error).getD [])) = false := by
  refine ⟨by decide, ?_, by decide⟩
  decide

theorem hasWriteKeyword_blocked (cfg : ExecConfig) (s : Str) (hro : cfg.read_only = true)
    (h : hasWriteKeyword s = true) :
    ∃ kw' ∈ WRITE_KEYWORDS, is_safe_query cfg s = (false, blockedMsg kw') := by
  obtain ⟨kw, hmem, hww⟩ := List.any_eq_true.mp h
  cases hf : WRITE_KEYWORDS.find? (fun k => containsWholeWord k (stripCh (upperStr s))) with
  | none =>
    exact absurd hww (by simpa using List.find?_eq_none.mp hf kw hmem)
  | some kw' =>
    refine ⟨kw', List.mem_of_find?_eq_some hf, ?_⟩
    unfold is_safe_query
    rw [hro]
    simp only [if_true, hf]

/-- C2 as amended: a candidate with more than one non-empty statement is always
rejected (success = false); the error mentions "multiple", except when read-only mode
already rejected a whole-word mutating keyword, in which case it mentions "blocked". -/
theorem C2_multi_rejected (cfg : ExecConfig) (db : Str → DbOutcome) (s : Str)
    (h : claimMultiStatement s = true) :
    (execute cfg db s).1.success = false ∧
      ((cfg.read_only = true ∧ hasWriteKeyword s = true) →
        containsSubstr (str "blocked")
          (lowerStr (((execute cfg db s).1.error).getD [])) = true) ∧
      (¬(cfg.read_only = true ∧ hasWriteKeyword s = true) →
        containsSubstr (str "multiple")
          (lowerStr (((execute cfg db s).1.error).getD [])) = true) := by
  by_cases hb : cfg.read_only = true ∧ hasWriteKeyword s = true
  · obtain ⟨kw', _, hsafe⟩ := hasWriteKeyword_blocked cfg s hb.1 hb.2
    have hexec : execute cfg db s =
        ({ success := false, columns := [], rows := [], row_count := 0,
           error := some (blockedMsg kw'), sql := some s }, []) := by
      unfold execute
      rw [hsafe]
      simp
    rw [hexec]
    exact ⟨rfl, fun _ => blockedMsg_mentions_blocked kw', fun h' => absurd hb h'⟩
  · have hfind : (if cfg.read_only then
        WRITE_KEYWORDS.find? (fun kw => containsWholeWord kw (stripCh (upperStr s)))
        else none) = none := by
      cases hro : cfg.read_only with
      | false => simp
      | true =>
        rw [if_pos rfl]
        cases hf : WRITE_KEYWORDS.find?
            (fun k => containsWholeWord k (stripCh (upperStr s))) with
        | none => rfl
        | some kw =>
          exfalso
          apply hb
          refine ⟨hro, List.any_eq_true.mpr ⟨kw, List.mem_of_find?_eq_some hf, ?_⟩⟩
          have hp := List.find?_some hf
          simpa using hp
    have hsafe : is_safe_query cfg s = (false, multiMsg) := by
      unfold is_safe_query
      rw [hfind]
      rw [if_pos ((claimMulti_iff s).mp h)]
    have hexec : execute cfg db s =
        ({ success := false, columns := [], rows := [], row_count := 0,
           error := some multiMsg, sql := some s }, []) := by
      unfold execute
      rw [hsafe]
      simp
    rw [hexec]
    have hmm : containsSubstr (str "multiple") (lowerStr multiMsg) = true := by decide
    exact ⟨rfl, fun h' => absurd h' hb, fun _ => hmm⟩

/-- Witness for the amended C2 at a concrete two-statement candidate with no
mutating keyword. -/
theorem C2_witness :
    (execute ⟨true, 30, 1000⟩ (fun _ => DbOutcome.ok [] [])
        (str "SELECT 1; SELECT 2")).1.success = false ∧
      containsSubstr (str "multiple")
        (lowerStr (((execute ⟨true, 30, 1000⟩ (fun _ => DbOutcome.ok [] [])
          (str "SELECT 1; SELECT 2")).1.error).getD [])) = true := by
  have h := C2_multi_rejected ⟨true, 30, 1000⟩ (fun _ => DbOutcome.ok [] [])
    (str "SELECT 1; SELECT 2") (by decide)
  exact ⟨h.1, h.2.2 (fun hc => absurd hc.2 (by decide))⟩

/-! ### Characterizations of `execute` -/

theorem execute_safe_eq (cfg : ExecConfig) (db : Str → DbOutcome) (s : Str)
    (hsafe : (is_safe_query cfg s).1 = true) :
    execute cfg db s =
      match db (normalizeSql cfg s) with
      | .ok cols rows =>
        ({ success := true, columns := cols, rows := rows.take cfg.max_results,
           row_count := (rows.take cfg.max_results).length, error := none,
           sql := some (normalizeSql cfg s) },
         [Event.connOpen, Event.stmtExec (normalizeSql cfg s), Event.connClose])
      | .connErr m =>
        ({ success := false, columns := [], rows := [], row_count := 0,
           error := some m, sql := some (normalizeSql cfg s) }, [])
      | .sqlErr m =>
        ({ success := false, columns := [], rows := [], row_count := 0,
           error := some m, sql := some (normalizeSql cfg s) },
         [Event.connOpen, Event.stmtExec (normalizeSql cfg s)])
      | .otherErr m =>
        ({ success := false, columns := [], rows := [], row_count := 0,
           error := some (str "Unexpected error: " ++ m),
           sql := some (normalizeSql cfg s) },
         [Event.connOpen, Event.stmtExec (normalizeSql cfg s)]) := by
  simp only [execute, hsafe, if_true]

theorem execute_unsafe_eq (cfg : ExecConfig) (db : Str → DbOutcome) (s : Str)
    (hsafe : (is_safe_query cfg s).1 = false) :
    execute cfg db s =
      ({ success := false, columns := [], rows := [], row_count := 0,
         error := some (is_safe_query cfg s).2, sql := some s }, []) := by
  simp [execute, hsafe]

/-! ### Claim C3 -/

/-- Counterexample to C3 as stated: `SELECT unlimited FROM t` is accepted, begins with
SELECT, and has no row-limiting clause (no whole-word LIMIT), yet the executed and
recorded SQL has no LIMIT clause appended at all, because the source tests the
substring `LIMIT` and `UNLIMITED` contains it. -/
theorem C3_counterexample :
    (is_safe_query ⟨true, 30, 1000⟩ (str "SELECT unlimited FROM t")).1 = true ∧
      (str "SELECT").isPrefixOf (upperStr (cleanSql (str "SELECT unlimited FROM t"))) = true ∧
      containsWholeWord (str "LIMIT") (upperStr (str "SELECT unlimited FROM t")) = false ∧
      (execute ⟨true, 30, 1000⟩ (fun _ => DbOutcome.ok [] [])
        (str "SELECT unlimited FROM t")).1.sql = some (str "SELECT unlimited FROM t") ∧
      containsSubstr (str " LIMIT 1000")
        (((execute ⟨true, 30, 1000⟩ (fun _ => DbOutcome.ok [] [])
          (str "SELECT unlimited FROM t")).1.sql).getD []) = false := by
  refine ⟨by decide, by decide, by decide, ?_, ?_⟩ <;> decide

/-- C3 as amended: for an accepted candidate whose cleaned form begins with SELECT and
whose uppercased cleaned form does not contain the substring LIMIT, the executed and
recorded SQL is the cleaned form with ` LIMIT max_results` appended. -/
theorem C3_limit_appended (cfg : ExecConfig) (db : Str → DbOutcome) (s : Str)
    (hsafe : (is_safe_query cfg s).1 = true)
    (hsel : (str "SELECT").isPrefixOf (upperStr (cleanSql s)) = true)
    (hnolim : containsSubstr (str "LIMIT") (upperStr (cleanSql s)) = false) :
    (execute cfg db s).1.sql =
        some (cleanSql s ++ str " LIMIT " ++ natToStr cfg.max_results) ∧
      ∀ t, Event.stmtExec t ∈ (execute cfg db s).2 →
        t = cleanSql s ++ str " LIMIT " ++ natToStr cfg.max_results := by
  have hnorm : normalizeSql cfg s = cleanSql s ++ str " LIMIT " ++ natToStr cfg.max_results := by
    simp [normalizeSql, hsel, hnolim]
  rw [execute_safe_eq cfg db s hsafe, hnorm]
  cases db (cleanSql s ++ str " LIMIT " ++ natToStr cfg.max_results) with
  | ok cols rows => exact ⟨rfl, fun t ht => by simp at ht; simpa using ht⟩
  | connErr m => exact ⟨rfl, fun t ht => absurd ht (by simp)⟩
  | sqlErr m => exact ⟨rfl, fun t ht => by simp at ht; simpa using ht⟩
  | otherErr m => exact ⟨rfl, fun t ht => by simp at ht; simpa using ht⟩

/-- Witness for the amended C3: a plain SELECT gets ` LIMIT 1000` appended. -/
theorem C3_witness :
    (execute ⟨true, 30, 1000⟩ (fun _ => DbOutcome.ok [] [])
        (str "SELECT * FROM users")).1.sql =
      some (cleanSql (str "SELECT * FROM users") ++ str " LIMIT " ++ natToStr 1000) :=
  (C3_limit_appended ⟨true, 30, 1000⟩ (fun _ => DbOutcome.ok [] [])
    (str "SELECT * FROM users") (by decide) (by decide) (by decide)).1

/-! ### Claim C4 -/

/-- C4: the embedded `execute` is a total function into `QueryResult` (every raised
exception of the source is caught and turned into a return value, which the model
expresses by construction), and on an execution-layer failure the engine's error
text is captured verbatim: a `sqlite3.Error` message `m` (raised at connect or at
execute/fetch) appears as `error = some m`; any other exception is captured with the
source's `Unexpected error: ` prefix. -/
theorem C4_error_capture (cfg : ExecConfig) (db : Str → DbOutcome) (s : Str)
    (hsafe : (is_safe_query cfg s).1 = true) (m : Str) :
    (db (normalizeSql cfg s) = DbOutcome.sqlErr m →
      (execute cfg db s).1.success = false ∧ (execute cfg db s).1.error = some m) ∧
    (db (normalizeSql cfg s) = DbOutcome.connErr m →
      (execute cfg db s).1.success = false ∧ (execute cfg db s).1.error = some m) ∧
    (db (normalizeSql cfg s) = DbOutcome.otherErr m →
      (execute cfg db s).1.success = false ∧
        (execute cfg db s).1.error = some (str "Unexpected error: " ++ m)) := by
  rw [execute_safe_eq cfg db s hsafe]
  refine ⟨fun h => ?_, fun h => ?_, fun h => ?_⟩ <;> rw [h] <;> exact ⟨rfl, rfl⟩

/-- Witness for C4: a concrete sqlite error message is returned verbatim. -/
theorem C4_witness :
    (execute ⟨true, 30, 1000⟩ (fun _ => DbOutcome.sqlErr (str "no such table: users"))
        (str "SELECT 1")).1.success = false ∧
      (execute ⟨true, 30, 1000⟩ (fun _ => DbOutcome.sqlErr (str "no such table: users"))
        (str "SELECT 1")).1.error = some (str "no such table: users") :=
  (C4_error_capture ⟨true, 30, 1000⟩ (fun _ => DbOutcome.sqlErr (str "no such table: users"))
    (str "SELECT 1") (by decide) (str "no such table: users")).1 rfl

/-! ### Claim C5 -/

/-- C5 evaluated at the failing input: for `SELECT * FROM nonexistent_table` the
sqlite layer raises a `sqlite3.Error`, and `execute` returns from the `except`
branch with the connection opened but never closed — the trace has a `connOpen`
event and no `connClose` event, contradicting "close the connection unconditionally
on every exit path". -/
theorem C5_no_close_on_error :
    Event.connOpen ∈ (execute ⟨true, 30, 1000⟩
        (fun _ => DbOutcome.sqlErr (str "no such table: nonexistent_table"))
        (str "SELECT * FROM nonexistent_table")).2 ∧
      Event.connClose ∉ (execute ⟨true, 30, 1000⟩
        (fun _ => DbOutcome.sqlErr (str "no such table: nonexistent_table"))
        (str "SELECT * FROM nonexistent_table")).2 := by
  decide

/-! ### Claim C7 -/

/-- C7: every `QueryResult` returned by `execute` has `row_count` equal to the number
of rows; on failure the rows and columns are empty, the count is zero and the error
is populated; on success the error is absent. -/
theorem C7_result_invariants (cfg : ExecConfig) (db : Str → DbOutcome) (s : Str) :
    ((execute cfg db s).1.row_count = (execute cfg db s).1.rows.length) ∧
      ((execute cfg db s).1.success = false →
        (execute cfg db s).1.rows = [] ∧ (execute cfg db s).1.columns = [] ∧
          (execute cfg db s).1.row_count = 0 ∧
          ((execute cfg db s).1.error).isSome = true) ∧
      ((execute cfg db s).1.success = true → (execute cfg db s).1.error = none) := by
  by_cases hsafe : (is_safe_query cfg s).1 = true
  · rw [execute_safe_eq cfg db s hsafe]
    cases db (normalizeSql cfg s) <;> simp
  · rw [execute_unsafe_eq cfg db s (by simpa using hsafe)]
    simp

/-- Witness for C7 at a failing input (blocked write in read-only mode). -/
theorem C7_witness :
    (execute ⟨true, 30, 1000⟩ (fun _ => DbOutcome.ok [] [])
        (str "DELETE FROM users")).1.rows = [] ∧
      (execute ⟨true, 30, 1000⟩ (fun _ => DbOutcome.ok [] [])
        (str "DELETE FROM users")).1.columns = [] ∧
      (execute ⟨true, 30, 1000⟩ (fun _ => DbOutcome.ok [] [])
        (str "DELETE FROM users")).1.row_count = 0 ∧
      ((execute ⟨true, 30, 1000⟩ (fun _ => DbOutcome.ok [] [])
        (str "DELETE FROM users")).1.error).isSome = true :=
  (C7_result_invariants ⟨true, 30, 1000⟩ (fun _ => DbOutcome.ok [] [])
    (str "DELETE FROM users")).2.1 (by decide)

/-! ### Claim C6 -/

theorem getLast?_cons_of_ne {α : Type} (a : α) (l : List α) (h : l ≠ []) :
    (a :: l).getLast? = l.getLast? := by
  cases l with
  | nil => exact absurd rfl h
  | cons x xs => exact List.getLast?_cons_cons

theorem processLoop_allfail (genB : Str → Str) (execF : Str → QueryResult)
    (st kc q : Str) (maxR : Nat)
    (hfail : ∀ p, (execF (candidateOf (genB p))).success = false) :
    ∀ remaining attempt errCtx, attempt + remaining = maxR →
      ((processLoop genB execF st kc q false maxR remaining attempt errCtx).1.length
          = remaining) ∧
      (processLoop genB execF st kc q false maxR remaining attempt errCtx).2 = none ∧
      (∀ l ∈ (processLoop genB execF st kc q false maxR remaining attempt errCtx).1,
        l.sql = candidateOf (genB (buildQueryPrompt st kc l.errCtxIn q)) ∧
        l.res = some (execF l.sql) ∧
        (l.retried = true ↔ l.idx + 1 < maxR)) ∧
      (remaining ≠ 0 →
        ∃ l, (processLoop genB execF st kc q false maxR remaining attempt
            errCtx).1.getLast? = some l ∧
          l.idx = attempt + remaining - 1 ∧ l.retried = false) := by
  intro remaining
  induction remaining with
  | zero =>
    intro attempt errCtx _
    refine ⟨rfl, rfl, ?_, fun h => absurd rfl h⟩
    intro l hl
    simp [processLoop] at hl
  | succ r ih =>
    intro attempt errCtx hinv
    have hs : (execF (candidateOf (genB (buildQueryPrompt st kc errCtx q)))).success
        = false := hfail _
    cases r with
    | zero =>
      have hcond : ¬ attempt < maxR - 1 := by omega
      have heq : processLoop genB execF st kc q false maxR 1 attempt errCtx =
          ([⟨attempt, errCtx, candidateOf (genB (buildQueryPrompt st kc errCtx q)),
            some (execF (candidateOf (genB (buildQueryPrompt st kc errCtx q)))),
            false⟩], none) := by
        simp only [processLoop, Bool.false_eq_true, if_false, hs, if_neg hcond]
      rw [heq]
      refine ⟨rfl, rfl, ?_, fun _ => ⟨_, rfl, by simp, rfl⟩⟩
      intro l hl
      simp only [List.mem_singleton] at hl
      subst hl
      refine ⟨rfl, rfl, ?_⟩
      simp only [Bool.false_eq_true, false_iff]
      omega
    | succ r' =>
      have hcond : attempt < maxR - 1 := by omega
      have hnext := ih (attempt + 1)
        (some (buildErrorContext (candidateOf (genB (buildQueryPrompt st kc errCtx q)))
          ((execF (candidateOf (genB (buildQueryPrompt st kc errCtx q)))).error.getD [])))
        (by omega)
      have heq : processLoop genB execF st kc q false maxR (r' + 1 + 1) attempt errCtx =
          (⟨attempt, errCtx, candidateOf (genB (buildQueryPrompt st kc errCtx q)),
            some (execF (candidateOf (genB (buildQueryPrompt st kc errCtx q)))),
            true⟩ ::
            (processLoop genB execF st kc q false maxR (r' + 1) (attempt + 1)
              (some (buildErrorContext
                (candidateOf (genB (buildQueryPrompt st kc errCtx q)))
                ((execF (candidateOf (genB (buildQueryPrompt st kc
                  errCtx q)))).error.getD [])))).1,
           (processLoop genB execF st kc q false maxR (r' + 1) (attempt + 1)
              (some (buildErrorContext
                (candidateOf (genB (buildQueryPrompt st kc errCtx q)))
                ((execF (candidateOf (genB (buildQueryPrompt st kc
                  errCtx q)))).error.getD [])))).2) := by
        simp only [processLoop, Bool.false_eq_true, if_false, hs, if_pos hcond]
      rw [heq]
      obtain ⟨ihlen, ihret, ihmem, ihlast⟩ := hnext
      refine ⟨by simp [ihlen], ihret, ?_, ?_⟩
      · intro l hl
        rcases List.mem_cons.mp hl with h | h
        · subst h
          refine ⟨rfl, rfl, ?_⟩
          simp only [true_iff]
          omega
        · exact ihmem l h
      · intro _
        obtain ⟨l, hl1, hl2, hl3⟩ := ihlast (by omega)
        have hne : (processLoop genB execF st kc q false maxR (r' + 1) (attempt + 1)
            (some (buildErrorContext
              (candidateOf (genB (buildQueryPrompt st kc errCtx q)))
              ((execF (candidateOf (genB (buildQueryPrompt st kc
                errCtx q)))).error.getD [])))).1 ≠ [] := by
          intro hnil
          rw [hnil] at ihlen
          simp at ihlen
        refine ⟨l, ?_, by omega, hl3⟩
        rw [getLast?_cons_of_ne _ _ hne]
        exact hl1

/-- C6: with a retry budget of 3 and a generation backend whose every candidate fails
execution, `process_query` makes exactly 3 generation calls (one log entry per
backend invocation), returns no accepted SQL (the exhausted terminal state), retries
exactly when attempt + 1 is below the budget, and the final log entry surfaces the
last rejection: it is the failing execution result of the last candidate. -/
theorem C6_exhaustion (genB : Str → Str) (execF : Str → QueryResult) (st kc q : Str)
    (hfail : ∀ p, (execF (candidateOf (genB p))).success = false) :
    (process_query genB execF st kc q false 3).1.length = 3 ∧
      (process_query genB execF st kc q false 3).2 = none ∧
      (∀ l ∈ (process_query genB execF st kc q false 3).1,
        (l.retried = true ↔ l.idx + 1 < 3)) ∧
      (∃ l, (process_query genB execF st kc q false 3).1.getLast? = some l ∧
        l.idx = 2 ∧ l.retried = false ∧ l.res = some (execF l.sql) ∧
        (execF l.sql).success = false) := by
  obtain ⟨hlen, hret, hmem, hlast⟩ :=
    processLoop_allfail genB execF st kc q 3 hfail 3 0 none rfl
  simp only [process_query]
  refine ⟨hlen, hret, fun l hl => (hmem l hl).2.2, ?_⟩
  obtain ⟨l, hl1, hl2, hl3⟩ := hlast (by omega)
  have hm := hmem l (List.mem_of_mem_getLast? hl1)
  refine ⟨l, hl1, by omega, hl3, hm.2.1, ?_⟩
  rw [hm.1]
  exact hfail _

/-- Witness for C6 with a backend that always produces a blocked statement. -/
theorem C6_witness :
    (process_query (fun _ => str "DROP TABLE users")
        (fun sql => (execute ⟨true, 30, 1000⟩ (fun _ => DbOutcome.ok [] []) sql).1)
        (str "SCHEMA") [] (str "remove all users") false 3).1.length = 3 ∧
      (process_query (fun _ => str "DROP TABLE users")
        (fun sql => (execute ⟨true, 30, 1000⟩ (fun _ => DbOutcome.ok [] []) sql).1)
        (str "SCHEMA") [] (str "remove all users") false 3).2 = none :=
  ⟨(C6_exhaustion (fun _ => str "DROP TABLE users")
      (fun sql => (execute ⟨true, 30, 1000⟩ (fun _ => DbOutcome.ok [] []) sql).1)
      (str "SCHEMA") [] (str "remove all users")
      (fun _ => show (execute ⟨true, 30, 1000⟩ (fun _ => DbOutcome.ok [] [])
        (candidateOf (str "DROP TABLE users"))).1.success = false by decide)).1,
   (C6_exhaustion (fun _ => str "DROP TABLE users")
      (fun sql => (execute ⟨true, 30, 1000⟩ (fun _ => DbOutcome.ok [] []) sql).1)
      (str "SCHEMA") [] (str "remove all users")
      (fun _ => show (execute ⟨true, 30, 1000⟩ (fun _ => DbOutcome.ok [] [])
        (candidateOf (str "DROP TABLE users"))).1.success = false by decide)).2.1⟩

/-! ### Claim C8 -/

/-- C8: (a) any document whose lowercased stem equals a question keyword is selected;
(b) when `_joins.md` is among the (distinct) document names it appears in the
selection exactly once, whatever the question; (c) when it was not matched by the
per-document loop it is appended at the end. -/
theorem C8_joins_always_selected (docs : List KDoc) (query : Str) (tables : List Str)
    (hnd : (docs.map (fun d => d.name)).Nodup) :
    (∀ d ∈ docs, lowerStr (stemOf d.name) ∈ extract_keywords query →
      d.name ∈ find_relevant_files docs query tables) ∧
      ((str "_joins.md") ∈ docs.map (fun d => d.name) →
        (find_relevant_files docs query tables).count (str "_joins.md") = 1) ∧
      ((str "_joins.md") ∈ docs.map (fun d => d.name) →
        (str "_joins.md") ∉ (docs.filter (docMatches (queryKeywords query tables))).map
          (fun d => d.name) →
        (find_relevant_files docs query tables).getLast? = some (str "_joins.md")) := by
  refine ⟨?_, ?_, ?_⟩
  · intro d hd hstem
    have hkws : lowerStr (stemOf d.name) ∈ queryKeywords query tables :=
      List.mem_dedup.mpr (List.mem_append_left _ hstem)
    have hmatch : docMatches (queryKeywords query tables) d = true := by
      unfold docMatches
      simp [hkws]
    have hrel : d.name ∈ (docs.filter (docMatches (queryKeywords query tables))).map
        (fun d => d.name) :=
      List.mem_map.mpr ⟨d, List.mem_filter.mpr ⟨hd, hmatch⟩, rfl⟩
    unfold find_relevant_files
    split
    · exact List.mem_append_left _ hrel
    · exact hrel
  · intro hj
    have hsub : List.Sublist
        ((docs.filter (docMatches (queryKeywords query tables))).map (fun d => d.name))
        (docs.map (fun d => d.name)) :=
      (List.filter_sublist docs).map (fun d => d.name)
    have hcount1 : (docs.map (fun d => d.name)).count (str "_joins.md") = 1 :=
      List.count_eq_one_of_mem hnd hj
    unfold find_relevant_files
    split
    · rename_i h
      simp only [Bool.and_eq_true, Bool.not_eq_true', decide_eq_false_iff_not,
        decide_eq_true_eq] at h
      rw [List.count_append, List.count_eq_zero.mpr h.2]
      simp
    · rename_i h
      simp only [Bool.and_eq_true, Bool.not_eq_true', decide_eq_false_iff_not,
        decide_eq_true_eq, not_and, not_not] at h
      have hmem := h hj
      have hle := hsub.count_le (str "_joins.md")
      have hge := List.count_pos_iff.mpr hmem
      omega
  · intro hj hnm
    unfold find_relevant_files
    split
    · exact List.getLast?_concat _
    · rename_i h
      simp only [Bool.and_eq_true, Bool.not_eq_true', decide_eq_false_iff_not,
        decide_eq_true_eq, not_and, not_not] at h
      exact absurd (h hj) hnm

/-- Witness for C8: a knowledge base with a matching document and `_joins.md`. -/
theorem C8_witness :
    (find_relevant_files
        [⟨str "transactions.md", str "transaction ledger notes"⟩,
         ⟨str "_joins.md", str "join recipes"⟩]
        (str "Show all transactions") []).count (str "_joins.md") = 1 :=
  (C8_joins_always_selected
    [⟨str "transactions.md", str "transaction ledger notes"⟩,
     ⟨str "_joins.md", str "join recipes"⟩]
    (str "Show all transactions") [] (by decide)).2.1 (by decide)

/-! ### Claim C9 -/

theorem fwAux_wrAux (s : Str) :
    (fwAux s none false = (wrAux s none).filter (fun w => w.all isLowerAlpha)) ∧
      (∀ run, run ≠ [] → run.all isLowerAlpha = true → ∀ b,
        fwAux s (some (run, true)) b
          = (wrAux s (some run)).filter (fun w => w.all isLowerAlpha)) ∧
      (∀ r, r.all isLowerAlpha = false →
        fwAux s none true = (wrAux s (some r)).filter (fun w => w.all isLowerAlpha)) ∧
      (∀ run r, r.all isLowerAlpha = false → ∀ b,
        fwAux s (some (run, false)) b
          = (wrAux s (some r)).filter (fun w => w.all isLowerAlpha)) := by
  induction s with
  | nil =>
    refine ⟨rfl, ?_, ?_, ?_⟩
    · intro run hne hall b
      simp [fwAux, wrAux, List.all_reverse, hall]
    · intro r hall
      simp [fwAux, wrAux, List.all_reverse, hall]
    · intro run r hall b
      simp [fwAux, wrAux, List.all_reverse, hall]
  | cons c rest ih =>
    obtain ⟨ih1, ih2, ih3, ih4⟩ := ih
    by_cases haz : isLowerAlpha c = true
    · have hw : wordChar c = true := lowerAlpha_word haz
      refine ⟨?_, ?_, ?_, ?_⟩
      · simp only [fwAux, wrAux, haz, hw, if_true, Bool.not_false]
        exact ih2 [c] (by simp) (by simp [haz]) true
      · intro run hne hall b
        simp only [fwAux, wrAux, haz, hw, if_true]
        exact ih2 (c :: run) (by simp) (by simp [haz, hall]) true
      · intro r hall
        simp only [fwAux, wrAux, haz, hw, if_true, Bool.not_true]
        exact ih4 [c] (c :: r) (by simp [hall]) true
      · intro run r hall b
        simp only [fwAux, wrAux, haz, hw, if_true]
        exact ih4 (c :: run) (c :: r) (by simp [hall]) true
    · have haz' : isLowerAlpha c = false := by simpa using haz
      by_cases hw : wordChar c = true
      · refine ⟨?_, ?_, ?_, ?_⟩
        · simp only [fwAux, wrAux, haz', hw, Bool.false_eq_true, if_false, if_true]
          exact ih3 [c] (by simp [haz'])
        · intro run hne hall b
          simp only [fwAux, wrAux, haz', hw, Bool.false_eq_true, if_false, if_true,
            Bool.not_true, Bool.and_false, List.nil_append]
          exact ih3 (c :: run) (by simp [haz'])
        · intro r hall
          simp only [fwAux, wrAux, haz', hw, Bool.false_eq_true, if_false, if_true]
          exact ih3 (c :: r) (by simp [haz'])
        · intro run r hall b
          simp only [fwAux, wrAux, haz', hw, Bool.false_eq_true, if_false, if_true,
            Bool.false_and, List.nil_append]
          exact ih3 (c :: r) (by simp [haz'])
      · have hw' : wordChar c = false := by simpa using hw
        refine ⟨?_, ?_, ?_, ?_⟩
        · simp only [fwAux, wrAux, haz', hw', Bool.false_eq_true, if_false]
          exact ih1
        · intro run hne hall b
          simp only [fwAux, wrAux, haz', hw', Bool.false_eq_true, if_false,
            Bool.not_false, Bool.and_true, if_true]
          rw [List.filter_cons_of_pos (by simpa [List.all_reverse] using hall)]
          simp only [List.singleton_append, List.cons.injEq]
          exact ⟨trivial, ih1⟩
        · intro r hall
          simp only [fwAux, wrAux, haz', hw', Bool.false_eq_true, if_false]
          rw [List.filter_cons_of_neg (by simp [List.all_reverse, hall])]
          exact ih1
        · intro run r hall b
          simp only [fwAux, wrAux, haz', hw', Bool.false_eq_true, if_false,
            Bool.not_false, Bool.false_and, List.nil_append]
          rw [List.filter_cons_of_neg (by simp [List.all_reverse, hall])]
          exact ih1

theorem pyWords_eq (s : Str) :
    pyWords s = (wrAux s none).filter (fun w => w.all isLowerAlpha) :=
  (fwAux_wrAux s).1

/-- Counterexample to C9 as stated: in "foo1 bar", "foo" is an alphabetic run of
length 3 and no stop word, so the claim's recipe selects it, but the source's
`\b[a-z]+\b` findall rejects it (the digit 1 after it is a word character, so there
is no word boundary), and the extracted keyword set misses it. -/
theorem C9_counterexample :
    (str "foo") ∈ claimKeywords (str "foo1 bar") ∧
      (str "foo") ∉ extract_keywords (str "foo1 bar") := by
  refine ⟨by decide, by decide⟩

/-- C9 as amended: the extracted keyword set consists of exactly the maximal
word-character runs of the lowercased text that are purely alphabetic (the word
boundaries of `\b[a-z]+\b` exclude runs adjacent to digits or underscores), have
length at least 3, and are not stop words. -/
theorem C9_keywords_characterization (text : Str) (w : Str) :
    w ∈ extract_keywords text ↔
      (w ∈ wordRuns (lowerStr text) ∧ w.all isLowerAlpha = true ∧
        w ∉ STOP_WORDS ∧ 2 < w.length) := by
  simp only [extract_keywords, pyWords_eq, wordRuns, List.mem_dedup, List.mem_filter,
    Bool.and_eq_true, Bool.not_eq_true', decide_eq_false_iff_not, decide_eq_true_eq]
  tauto

/-- Witness instantiating the amended C9 at a concrete question and keyword. -/
theorem C9_witness :
    (str "bar") ∈ extract_keywords (str "foo1 bar") ↔
      ((str "bar") ∈ wordRuns (lowerStr (str "foo1 bar")) ∧
        (str "bar").all isLowerAlpha = true ∧
        (str "bar") ∉ STOP_WORDS ∧ 2 < (str "bar").length) :=
  C9_keywords_characterization (str "foo1 bar") (str "bar")

/-! ### Claim C10 -/

theorem foldl_append_map {α β : Type} (f : α → β) (l : List α) (init : List β) :
    l.foldl (fun a x => a ++ [f x]) init = init ++ l.map f := by
  induction l generalizing init with
  | nil => simp
  | cons x xs ih => simp [ih]

theorem foldl_append_flat {α β : Type} (g : α → List β) (l : List α) (init : List β) :
    l.foldl (fun a x => a ++ g x) init = init ++ l.flatMap g := by
  induction l generalizing init with
  | nil => simp
  | cons x xs ih => simp [ih]

/-- Counterexample to C10 as stated: on a one-table schema with a primary key and a
foreign key, the source rendering differs from the claim's
`(TYPE[, PRIMARY KEY][, NOT NULL])` and `from -> to` format: the primary-key marker
is a nested ` (PRIMARY KEY)` without comma and the relationship separator is the
mojibake three-character arrow, not `->`. -/
theorem C10_counterexample :
    to_prompt_string
        ⟨[⟨str "users", [⟨str "id", str "INTEGER", true, true⟩,
            ⟨str "name", str "TEXT", false, false⟩], [str "id"],
          [⟨str "users", str "org_id", str "orgs", str "id"⟩]⟩],
         [⟨str "users", str "org_id", str "orgs", str "id"⟩]⟩ ≠
      specPromptString
        ⟨[⟨str "users", [⟨str "id", str "INTEGER", true, true⟩,
            ⟨str "name", str "TEXT", false, false⟩], [str "id"],
          [⟨str "users", str "org_id", str "orgs", str "id"⟩]⟩],
         [⟨str "users", str "org_id", str "orgs", str "id"⟩]⟩ ∧
      containsSubstr (str ", PRIMARY KEY")
        (to_prompt_string
          ⟨[⟨str "users", [⟨str "id", str "INTEGER", true, true⟩,
              ⟨str "name", str "TEXT", false, false⟩], [str "id"],
            [⟨str "users", str "org_id", str "orgs", str "id"⟩]⟩],
           [⟨str "users", str "org_id", str "orgs", str "id"⟩]⟩) = false ∧
      containsSubstr (str " -> ")
        (to_prompt_string
          ⟨[⟨str "users", [⟨str "id", str "INTEGER", true, true⟩,
              ⟨str "name", str "TEXT", false, false⟩], [str "id"],
            [⟨str "users", str "org_id", str "orgs", str "id"⟩]⟩],
           [⟨str "users", str "org_id", str "orgs", str "id"⟩]⟩) = false := by
  refine ⟨by decide, by decide, by decide⟩

/-- C10 as amended: `to_prompt_string` renders the header, then per table a
`Table: name` line followed by `  - column (TYPE( (PRIMARY KEY))?( NOT NULL)?)`
lines and a blank line, then — only when foreign keys exist — a `RELATIONSHIPS:`
block with one `  - from_table.from_column <arrow> to_table.to_column` line per
edge (the arrow being the source file's literal three-character sequence) and a
final blank line, all joined by newlines, in table-extraction order. -/
theorem C10_render_eq (s : Schema) : to_prompt_string s = renderPromptString s := by
  have hbody : (fun (acc : List Str) (t : Table) =>
      (t.columns.foldl (fun a c => a ++ [columnLine c])
        (acc ++ [str "Table: " ++ t.name])) ++ [[]])
      = fun (acc : List Str) (t : Table) =>
          acc ++ ((str "Table: " ++ t.name) :: (t.columns.map columnLine ++ [[]])) := by
    funext acc t
    rw [foldl_append_map]
    simp
  simp only [to_prompt_string, renderPromptString]
  rw [hbody, foldl_append_flat]
  by_cases hfk : s.foreign_keys.isEmpty = true
  · simp [hfk]
  · have hfk2 : s.foreign_keys.isEmpty = false := by simpa using hfk
    simp only [hfk2, Bool.false_eq_true, if_false, foldl_append_map]
    congr 1
    simp
